import Mathlib

/-!
Shallow embedding of `src/local_sec_pref_csv_uploader.py`, a CSV-driven
reconciler of NGFW local-security prefix containers and their per-site
bindings.  Python dicts keyed by strings are modelled as insertion-ordered
association lists (`AList β` below), Python sets of CIDR strings as
`Finset String`, remote responses as explicit structures, and the SDK as a
deterministic environment record supplying each remote call's response.
The run is modelled as a pure function producing the trace of remote calls
(mutating and fetch events); `sys.exit(1)` is `Except.error 1`.
-/

set_option autoImplicit false

namespace Uploader

/-- Insertion-ordered association list with string keys: the model of a
Python `dict` (and of `collections.defaultdict` insertion order). -/
abbrev AList (β : Type) : Type := List (String × β)

/-- Python dict lookup `m.get(k)`: first (unique) entry whose key is `k`. -/
def alistGet {β : Type} : AList β → String → Option β
  | [], _ => none
  | (k0, v0) :: t, k => if k0 = k then some v0 else alistGet t k

/-- Python dict assignment `m[k] = v`: overwrite in place, else append at the end
(insertion order preserved). -/
def alistSet {β : Type} : AList β → String → β → AList β
  | [], k, v => [(k, v)]
  | (k0, v0) :: t, k, v => if k0 = k then (k, v) :: t else (k0, v0) :: alistSet t k v

/-- Python dict membership `k in m`. -/
def alistContains {β : Type} (m : AList β) (k : String) : Bool :=
  (alistGet m k).isSome

/-- Python `m.get(k)` followed by a truthiness test (`if not x`): both a
missing key and an empty-string value count as absent. -/
def pyLookup (m : AList String) (k : String) : Option String :=
  match alistGet m k with
  | none => none
  | some v => if v = "" then none else some v

/-- Python truthiness of a string: non-empty. -/
def pyTruthyS (s : String) : Bool := s ≠ ""

/-- Python `str.strip()`: drop leading and trailing whitespace.  (Defined
over the character list so that it evaluates by kernel reduction.) -/
def pyStrip (s : String) : String :=
  String.mk (((s.data.dropWhile Char.isWhitespace).reverse.dropWhile
    Char.isWhitespace).reverse)

/-- Python truthiness of an optional string (`row.get(...)`): `None` and
`""` are falsy. -/
def pyTruthyO : Option String → Bool
  | none => false
  | some s => pyTruthyS s

/-! ## CSV reading and aggregation (source lines 69-95) -/

/-- One CSV data row as produced by `csv.DictReader`: header name → cell. -/
abbrev Row : Type := AList String

/-- Python `row.get(header)`. -/
def rowGet (row : Row) (h : String) : Option String := alistGet row h

/-- The parsed CSV file: `reader.fieldnames` (which is `None` on an empty
file) and the data rows. -/
structure CSVData where
  fieldnames : Option (List String)
  rows : List Row

/-- The `ignore_cols` list (source line 80). -/
def ignore_cols : List String := ["site_name", "SDK", "serial_number", "hostname"]

/-- Source line 81: `target_prefixes = [h for h in all_headers if h and h not in ignore_cols]`
(source line 81). -/
def target_prefixes (all_headers : List String) : List String :=
  all_headers.filter (fun h => pyTruthyS h && !(ignore_cols.contains h))

/-- The `pending_data` structure: site name → (prefix-group header → set of CIDR strings),
a `defaultdict(lambda: defaultdict(set))` that only materialises entries on
`.add` (source line 66). -/
abbrev Pending : Type := AList (AList (Finset String))

/-- Python `pending_data[site_name][header].add(c)`: materialise the (site, header)
entry on demand, preserving insertion order. -/
def addCell (p : Pending) (sn h c : String) : Pending :=
  match p with
  | [] => [(sn, [(h, {c})])]
  | (s0, g0) :: t =>
      if s0 = sn then (s0, addCellG g0 h c) :: t else (s0, g0) :: addCell t sn h c
where
  addCellG (g : AList (Finset String)) (h c : String) : AList (Finset String) :=
    match g with
    | [] => [(h, {c})]
    | (h0, s0) :: t => if h0 = h then (h0, insert c s0) :: t else (h0, s0) :: addCellG t h c

/-- The inner per-row loop over `target_prefixes` (source lines 88-91):
`cidr = row.get(header); if cidr and cidr.strip(): ...add(cidr.strip())`. -/
def aggregateCells (p : Pending) (site_name : String) (row : Row)
    (tps : List String) : Pending :=
  tps.foldl (fun acc header =>
    match rowGet row header with
    | none => acc
    | some cidr =>
        if pyTruthyS cidr && pyTruthyS (pyStrip cidr) then
          addCell acc site_name header (pyStrip cidr)
        else acc) p

/-- One iteration of the row loop (source lines 84-91):
`site_name = row.get('site_name'); if not site_name: continue`. -/
def aggregateRow (p : Pending) (tps : List String) (row : Row) : Pending :=
  match rowGet row "site_name" with
  | none => p
  | some site_name =>
      if site_name = "" then p else aggregateCells p site_name row tps

/-- The whole aggregation loop over the data rows. -/
def aggregate (tps : List String) (rows : List Row) : Pending :=
  rows.foldl (fun p row => aggregateRow p tps row) []

/-- Semantic view of `pending_data`: the CIDR set aggregated for a
(site, header) pair, empty when no entry was materialised. -/
def aggGet (p : Pending) (s h : String) : Finset String :=
  (alistGet ((alistGet p s).getD []) h).getD ∅

/-- The contribution of one row's cell under a header: empty for a missing,
blank or whitespace-only cell, the trimmed singleton otherwise. -/
def cellContrib (row : Row) (h : String) : Finset String :=
  match rowGet row h with
  | none => ∅
  | some c => if pyTruthyS c && pyTruthyS (pyStrip c) then {pyStrip c} else ∅

/-! ## Remote responses, bindings and payloads -/

/-- The triple every SDK call exposes to the core logic: `resp.ok`,
`resp.status_code`, `resp.text`. -/
structure Resp where
  ok : Bool
  status_code : Nat
  text : String
deriving DecidableEq

/-- A fetched site binding object, as consumed by source lines 139-173.
Each field models `b.get(key)`: `none` stands for an absent key or a JSON
null (Python cannot tell those apart through `.get`). -/
structure Binding where
  id : String
  prefix_id : String
  ipv4_prefixes : List String
  tags : Option (List String)
  _etag : Option String
  _schema : Option String
deriving DecidableEq

/-- The update (PUT) payload dict of source lines 161-173.  The `_etag`
and `_schema` entries are added only conditionally; `none` models the
absent key. -/
structure UpdatePayload where
  id : String
  prefix_id : String
  ipv4_prefixes : Finset String
  ipv6_prefixes : List String
  tags : List String
  _etag : Option String
  _schema : Option String

instance : DecidableEq UpdatePayload := fun a b =>
  decidable_of_iff
    (a.id = b.id ∧ a.prefix_id = b.prefix_id ∧ a.ipv4_prefixes = b.ipv4_prefixes ∧
      a.ipv6_prefixes = b.ipv6_prefixes ∧ a.tags = b.tags ∧ a._etag = b._etag ∧
      a._schema = b._schema)
    (by cases a; cases b; simp [UpdatePayload.mk.injEq, and_assoc])

/-- The create (POST) payload dict of source lines 191-196. -/
structure CreatePayload where
  prefix_id : String
  ipv4_prefixes : Finset String
  ipv6_prefixes : List String
  tags : List String

instance : DecidableEq CreatePayload := fun a b =>
  decidable_of_iff
    (a.prefix_id = b.prefix_id ∧ a.ipv4_prefixes = b.ipv4_prefixes ∧
      a.ipv6_prefixes = b.ipv6_prefixes ∧ a.tags = b.tags)
    (by cases a; cases b; simp [CreatePayload.mk.injEq, and_assoc])

/-- Which mechanism `get_ngfw_prefix_containers` used to list containers:
`sdk.get.ngfwsecuritypolicylocalprefixes`, the underscored variant, or the
raw `sdk.rest_call` path. -/
inductive ContainerCall where
  | capA
  | capB
  | generic
deriving DecidableEq

/-- The SDK and remote platform as a deterministic oracle: capability flags
for `hasattr` probes and the response each call would return.  `none` in
`bindingsFetch`, `putResult` and `postResult` models a raised exception
(the `except` arms of source lines 130, 183, 203). -/
structure Env where
  sitesResp : Resp
  sitesItems : List (String × String)
  hasCapA : Bool
  hasCapB : Bool
  contRespA : Resp
  contRespB : Resp
  contRespG : Resp
  contItemsA : List (String × String)
  contItemsB : List (String × String)
  contItemsG : List (String × String)
  hasPostCap : Bool
  createRespCap : String → Resp
  createRespRest : String → Resp
  createRespId : String → String
  bindingsFetch : String → Option (Resp × List Binding)
  putResult : String → String → UpdatePayload → Option Resp
  postResult : String → CreatePayload → Option Resp

/-- A remote call recorded in the run trace.  Fetching bindings is the only
non-mutating call recorded; the two prerequisite listing GETs precede every
event. -/
inductive Event where
  | createContainer (name : String) (r : Resp)
  | fetchBindings (siteId : String)
  | putBinding (siteId bindingId : String) (p : UpdatePayload) (r : Option Resp)
  | postBinding (siteId : String) (p : CreatePayload) (r : Option Resp)

instance : DecidableEq Event := fun a b =>
  match a, b with
  | Event.createContainer n1 r1, Event.createContainer n2 r2 =>
      decidable_of_iff (n1 = n2 ∧ r1 = r2) (by simp)
  | Event.fetchBindings s1, Event.fetchBindings s2 =>
      decidable_of_iff (s1 = s2) (by simp)
  | Event.putBinding s1 b1 p1 r1, Event.putBinding s2 b2 p2 r2 =>
      decidable_of_iff (s1 = s2 ∧ b1 = b2 ∧ p1 = p2 ∧ r1 = r2) (by simp)
  | Event.postBinding s1 p1 r1, Event.postBinding s2 p2 r2 =>
      decidable_of_iff (s1 = s2 ∧ p1 = p2 ∧ r1 = r2) (by simp)
  | Event.createContainer _ _, Event.fetchBindings _ => isFalse (by simp)
  | Event.createContainer _ _, Event.putBinding _ _ _ _ => isFalse (by simp)
  | Event.createContainer _ _, Event.postBinding _ _ _ => isFalse (by simp)
  | Event.fetchBindings _, Event.createContainer _ _ => isFalse (by simp)
  | Event.fetchBindings _, Event.putBinding _ _ _ _ => isFalse (by simp)
  | Event.fetchBindings _, Event.postBinding _ _ _ => isFalse (by simp)
  | Event.putBinding _ _ _ _, Event.createContainer _ _ => isFalse (by simp)
  | Event.putBinding _ _ _ _, Event.fetchBindings _ => isFalse (by simp)
  | Event.putBinding _ _ _ _, Event.postBinding _ _ _ => isFalse (by simp)
  | Event.postBinding _ _ _, Event.createContainer _ _ => isFalse (by simp)
  | Event.postBinding _ _ _, Event.fetchBindings _ => isFalse (by simp)
  | Event.postBinding _ _ _, Event.putBinding _ _ _ _ => isFalse (by simp)

/-- Whether an event is a mutating remote call. -/
def Event.isMutating : Event → Bool
  | .createContainer _ _ => true
  | .fetchBindings _ => false
  | .putBinding _ _ _ _ => true
  | .postBinding _ _ _ => true

/-- Source lines 32-33 and 52-53:
`for item in resp.json().get('items', []): map[item['name']] = item['id']`
(source lines 32-33 and 52-53). -/
def buildIdMap (items : List (String × String)) : AList String :=
  items.foldl (fun m it => alistSet m it.1 it.2) []

/-! ## Remote inventory loaders (source lines 25-54) -/

/-- Function `get_site_map` (source lines 25-34): fatal `sys.exit(1)` when the sites
listing is not ok. -/
def get_site_map (env : Env) : Except Nat (AList String) :=
  if env.sitesResp.ok then Except.ok (buildIdMap env.sitesItems) else Except.error 1

/-- The `hasattr` fallback chain of source lines 40-46, as the mechanism it
selects. -/
def containersCallChoice (env : Env) : ContainerCall :=
  if env.hasCapA then ContainerCall.capA
  else if env.hasCapB then ContainerCall.capB
  else ContainerCall.generic

/-- The response returned by the selected listing mechanism. -/
def containersResp (env : Env) : Resp :=
  match containersCallChoice env with
  | ContainerCall.capA => env.contRespA
  | ContainerCall.capB => env.contRespB
  | ContainerCall.generic => env.contRespG

/-- The `items` of the selected listing mechanism's JSON body. -/
def containersItems (env : Env) : List (String × String) :=
  match containersCallChoice env with
  | ContainerCall.capA => env.contItemsA
  | ContainerCall.capB => env.contItemsB
  | ContainerCall.generic => env.contItemsG

/-- Function `get_ngfw_prefix_containers` (source lines 36-54): fatal `sys.exit(1)`
when the selected listing response is not ok. -/
def get_ngfw_prefix_containers (env : Env) : Except Nat (AList String) :=
  if (containersResp env).ok then Except.ok (buildIdMap (containersItems env))
  else Except.error 1

/-! ## Container reconciler (source lines 97-113) -/

/-- The container-create response, behind the `hasattr(sdk.post, ...)`
fallback of source lines 103-106 (both arms issue the same logical create). -/
def containerCreateResp (env : Env) (name : String) : Resp :=
  if env.hasPostCap then env.createRespCap name else env.createRespRest name

/-- One iteration of the `VERIFY CONTAINERS` loop (source lines 99-113):
skip a header already present in the map, else issue the create call and,
on success, insert the returned id under the header name. -/
def verifyStep (env : Env) (acc : AList String × List Event) (p_name : String) :
    AList String × List Event :=
  if alistContains acc.1 p_name then acc
  else
    let resp := containerCreateResp env p_name
    if resp.ok then
      (alistSet acc.1 p_name (env.createRespId p_name),
        acc.2 ++ [Event.createContainer p_name resp])
    else (acc.1, acc.2 ++ [Event.createContainer p_name resp])

/-- The `VERIFY CONTAINERS` loop (source lines 97-113): create every target
header missing from `container_map`, inserting the returned id on success. -/
def verifyContainers (env : Env) (tps : List String) (container_map : AList String) :
    AList String × List Event :=
  tps.foldl (verifyStep env) (container_map, [])

/-! ## Binding reconciler (source lines 115-204) -/

/-- The `current_bindings_map` built from one fetch (source lines 124-131):
empty on a non-ok response or an exception. -/
def buildBindingsMap (items : List Binding) : AList Binding :=
  items.foldl (fun m b => alistSet m b.prefix_id b) []

/-- The fetch of a site's existing bindings (source lines 124-131). -/
def fetchCurrentBindings (env : Env) (site_id : String) : AList Binding :=
  match env.bindingsFetch site_id with
  | none => []
  | some (resp, items) => if resp.ok then buildBindingsMap items else []

/-- The update payload construction of source lines 152-173: tags default
to `[]` when absent or null; `_etag` / `_schema` are carried over exactly
when present (`Option` models the conditional key insertion). -/
def mkUpdatePayload (existing_binding : Binding) (container_id : String)
    (merged_ips : Finset String) : UpdatePayload :=
  { id := existing_binding.id
    prefix_id := container_id
    ipv4_prefixes := merged_ips
    ipv6_prefixes := []
    tags := match existing_binding.tags with
            | none => []
            | some ts => ts
    _etag := existing_binding._etag
    _schema := existing_binding._schema }

/-- The body of the per-(header, CIDR set) loop (source lines 133-204):
skip on an unresolved container id; update when the union grows an existing
binding, skip it as up to date otherwise; create when no binding exists. -/
def processPair (env : Env) (site_id : String) (container_map : AList String)
    (current_bindings_map : AList Binding) (header : String)
    (new_cidrs_set : Finset String) : List Event :=
  match pyLookup container_map header with
  | none => []
  | some container_id =>
      match alistGet current_bindings_map container_id with
      | some existing_binding =>
          let current_ips : Finset String := existing_binding.ipv4_prefixes.toFinset
          let merged_ips : Finset String := current_ips ∪ new_cidrs_set
          if merged_ips.card > current_ips.card then
            let payload := mkUpdatePayload existing_binding container_id merged_ips
            [Event.putBinding site_id existing_binding.id payload
              (env.putResult site_id existing_binding.id payload)]
          else []
      | none =>
          let payload : CreatePayload :=
            { prefix_id := container_id
              ipv4_prefixes := new_cidrs_set
              ipv6_prefixes := []
              tags := [] }
          [Event.postBinding site_id payload (env.postResult site_id payload)]

/-- One iteration of the site loop (source lines 117-204): silently skip a
site whose name does not resolve to a truthy id; otherwise fetch bindings
once and process every (header, CIDR set) pair. -/
def processSite (env : Env) (site_id_map container_map : AList String)
    (site_name : String) (prefixes_data : AList (Finset String)) : List Event :=
  match pyLookup site_id_map site_name with
  | none => []
  | some site_id =>
      let current_bindings_map := fetchCurrentBindings env site_id
      Event.fetchBindings site_id ::
        prefixes_data.foldl (fun evs hs =>
          evs ++ processPair env site_id container_map current_bindings_map hs.1 hs.2) []

/-- The run after both prerequisite listings succeeded: CSV reading and
aggregation (returning early on a missing file or an absent/empty header
row), container verification, then the site sync loop. -/
def runCore (env : Env) (site_id_map container_map : AList String)
    (csvFile : Option CSVData) : List Event :=
  match csvFile with
  | none => []
  | some data =>
      match data.fieldnames with
      | none => []
      | some all_headers =>
          if all_headers = [] then []
          else
            let tps := target_prefixes all_headers
            let pending := aggregate tps data.rows
            let vc := verifyContainers env tps container_map
            vc.2 ++ pending.foldl (fun evs sp =>
              evs ++ processSite env site_id_map vc.1 sp.1 sp.2) []

/-- Function `process_bindings` (source lines 59-204) over the environment and the
parsed CSV file (`none` = `FileNotFoundError`): the trace of remote calls,
or `Except.error 1` when a prerequisite listing fails. -/
def process_bindings (env : Env) (csvFile : Option CSVData) :
    Except Nat (List Event) :=
  match get_site_map env with
  | Except.error c => Except.error c
  | Except.ok site_id_map =>
      match get_ngfw_prefix_containers env with
      | Except.error c => Except.error c
      | Except.ok container_map =>
          Except.ok (runCore env site_id_map container_map csvFile)

/-! ## Response logging (source lines 179-184 and 199-204) -/

/-- The console outcome of an update attempt. -/
inductive UpdateLog where
  | successUpdated
  | failedUpdate (status : Nat) (text : String)
deriving DecidableEq

/-- The console outcome of a create attempt. -/
inductive CreateLog where
  | successCreated
  | failedCreate (status : Nat) (text : String)
deriving DecidableEq

/-- Source lines 179-182: `if resp.ok: SUCCESS else: FAILED Update`. -/
def handleUpdateResp (resp : Resp) : UpdateLog :=
  if resp.ok then UpdateLog.successUpdated
  else UpdateLog.failedUpdate resp.status_code resp.text

/-- Source lines 199-202: `if resp.ok: SUCCESS else: FAILED Create`. -/
def handleCreateResp (resp : Resp) : CreateLog :=
  if resp.ok then CreateLog.successCreated
  else CreateLog.failedCreate resp.status_code resp.text

/-- Whether an update outcome is reported as a failure. -/
def UpdateLog.isFailureLog : UpdateLog → Bool
  | UpdateLog.successUpdated => false
  | UpdateLog.failedUpdate _ _ => true

/-- Whether a create outcome is reported as a failure. -/
def CreateLog.isFailureLog : CreateLog → Bool
  | CreateLog.successCreated => false
  | CreateLog.failedCreate _ _ => true

/-- Whether the first list starts with the second (over characters). -/
def startsWithFrag : List Char → List Char → Bool
  | _, [] => true
  | [], _ :: _ => false
  | a :: as, b :: bs => a = b && startsWithFrag as bs

/-- Whether `frag` occurs contiguously inside `hay`. -/
def hasFragment (hay frag : List Char) : Bool :=
  match hay with
  | [] => startsWithFrag [] frag
  | _ :: t => startsWithFrag hay frag || hasFragment t frag

/-- A response the remote side uses to report the object as already
existing: a 409 conflict status or an "already exists" message fragment. -/
def isConflictResp (r : Resp) : Bool :=
  r.status_code = 409 || hasFragment r.text.data "already exists".data

instance {ε α : Type} [DecidableEq ε] [DecidableEq α] : DecidableEq (Except ε α) :=
  fun a b =>
    match a, b with
    | Except.ok x, Except.ok y =>
        if h : x = y then isTrue (by rw [h]) else isFalse (by simp [h])
    | Except.error x, Except.error y =>
        if h : x = y then isTrue (by rw [h]) else isFalse (by simp [h])
    | Except.ok _, Except.error _ => isFalse (by simp)
    | Except.error _, Except.ok _ => isFalse (by simp)

/-- The names targeted by the container-create calls of a trace, in order. -/
def createdNames : List Event → List String
  | [] => []
  | Event.createContainer n _ :: t => n :: createdNames t
  | Event.fetchBindings _ :: t => createdNames t
  | Event.putBinding _ _ _ _ :: t => createdNames t
  | Event.postBinding _ _ _ :: t => createdNames t

/-! ## Concrete sample data used by the witness theorems -/

/-- An all-ok response. -/
def okResp : Resp := ⟨true, 200, ""⟩

/-- A sample fetched binding on container `c1` holding one CIDR. -/
def sampleBinding : Binding := ⟨"b1", "c1", ["10.0.0.0/24"], none, some "E", some "S"⟩

/-- A sample environment: one site `Boston`, one container `US-East`, one
existing binding on it; every remote call succeeds. -/
def sampleEnv : Env :=
  { sitesResp := okResp
    sitesItems := [("Boston", "s1")]
    hasCapA := true
    hasCapB := false
    contRespA := okResp
    contRespB := okResp
    contRespG := okResp
    contItemsA := [("US-East", "c1")]
    contItemsB := []
    contItemsG := []
    hasPostCap := true
    createRespCap := fun _ => okResp
    createRespRest := fun _ => okResp
    createRespId := fun n => "id-" ++ n
    bindingsFetch := fun sid =>
      if sid = "s1" then some (okResp, [sampleBinding]) else none
    putResult := fun _ _ _ => some okResp
    postResult := fun _ _ => some okResp }

/-- The sample environment with a failing sites listing. -/
def sampleEnvSitesFail : Env := { sampleEnv with sitesResp := ⟨false, 500, "err"⟩ }

/-- The sample environment with a failing containers listing. -/
def sampleEnvContFail : Env := { sampleEnv with contRespA := ⟨false, 500, "err"⟩ }

/-- A sample CSV whose single data row binds `10.0.0.0/24` to site `Boston`
under group `US-East`. -/
def sampleCSV : CSVData :=
  { fieldnames := some ["site_name", "US-East"]
    rows := [[("site_name", "Boston"), ("US-East", "10.0.0.0/24")]] }

/-- Modelled from the spec: the ordered list of mechanisms available for
listing containers — capability A when exposed, then capability B when
exposed, then the always-available generic request to the fixed resource
path. -/
def availableContainerCalls (env : Env) : List ContainerCall :=
  (if env.hasCapA then [ContainerCall.capA] else []) ++
    (if env.hasCapB then [ContainerCall.capB] else []) ++ [ContainerCall.generic]

/-- Whether the bindings fetched for site `sid` hold, under container id
`cid`, a binding whose ipv4 set already contains every CIDR of `s`. -/
def bindingCovers (env : Env) (sid cid : String) (s : Finset String) : Bool :=
  match alistGet (fetchCurrentBindings env sid) cid with
  | none => false
  | some eb => decide (s ⊆ eb.ipv4_prefixes.toFinset)

/-- Whether remote state is already synced with the aggregated CSV state:
every resolvable (site, group) pair has an existing binding containing the
whole CSV-supplied CIDR set. -/
def syncedState (env : Env) (simap cmap : AList String) (pending : Pending) : Bool :=
  pending.all (fun sp =>
    match pyLookup simap sp.1 with
    | none => true
    | some sid =>
        sp.2.all (fun gp =>
          match pyLookup cmap gp.1 with
          | none => true
          | some cid => bindingCovers env sid cid gp.2))

/-- Whether every target header already resolves in the container map. -/
def allContainersKnown (cmap : AList String) (tps : List String) : Bool :=
  tps.all (fun h => alistContains cmap h)

/-- A sample row with a blank site-name cell. -/
def wRowBlank : Row := [("site_name", ""), ("US-East", "10.0.0.0/24")]

/-- A sample row with a padded CIDR cell and a whitespace-only cell. -/
def wRow1 : Row :=
  [("site_name", "Boston"), ("US-East", " 10.0.0.0/24 "), ("US-West", "   ")]

/-- A sample row whose site-name cell is padded with whitespace. -/
def wRowPad : Row := [("site_name", " Boston "), ("US-East", "10.0.0.0/24")]

/-! ## Association-list lemmas -/

theorem alistGet_alistSet {β : Type} (m : AList β) (k : String) (v : β) (n : String) :
    alistGet (alistSet m k v) n = if k = n then some v else alistGet m n := by
  induction m with
  | nil => by_cases h : k = n <;> simp [alistSet, alistGet, h]
  | cons kv t ih =>
      obtain ⟨k0, v0⟩ := kv
      by_cases h : k0 = k
      · subst h
        by_cases h2 : k0 = n <;> simp [alistSet, alistGet, h2]
      · by_cases h2 : k0 = n
        · subst h2
          have hkn : ¬ k = k0 := fun he => h he.symm
          simp [alistSet, alistGet, h, hkn]
        · simp [alistSet, alistGet, h, h2, ih]

theorem alistContains_alistSet {β : Type} (m : AList β) (k : String) (v : β)
    (n : String) :
    alistContains (alistSet m k v) n = (decide (k = n) || alistContains m n) := by
  unfold alistContains
  rw [alistGet_alistSet]
  by_cases h : k = n <;> simp [h]

theorem alistContains_iff_isSome {β : Type} (m : AList β) (k : String) :
    alistContains m k = true ↔ (alistGet m k).isSome = true := Iff.rfl

/-! ## Fold-append helper lemmas -/

theorem foldl_append_shift {α β : Type} (f : α → List β) (l : List α)
    (init : List β) :
    l.foldl (fun a x => a ++ f x) init = init ++ l.foldl (fun a x => a ++ f x) [] := by
  induction l generalizing init with
  | nil => simp
  | cons x t ih =>
      simp only [List.foldl_cons]
      rw [ih (init ++ f x), ih (([] : List β) ++ f x)]
      simp

theorem mem_foldl_append {α β : Type} (f : α → List β) (l : List α) (e : β) :
    e ∈ l.foldl (fun a x => a ++ f x) [] ↔ ∃ x ∈ l, e ∈ f x := by
  induction l with
  | nil => simp
  | cons x t ih =>
      simp only [List.foldl_cons]
      rw [foldl_append_shift]
      simp [ih]

theorem foldl_append_nil {α β : Type} (f : α → List β) (l : List α)
    (init : List β) (h : ∀ x ∈ l, f x = []) :
    l.foldl (fun a x => a ++ f x) init = init := by
  induction l generalizing init with
  | nil => rfl
  | cons x t ih =>
      simp only [List.foldl_cons]
      rw [h x (by simp), List.append_nil]
      exact ih init (fun y hy => h y (by simp [hy]))

theorem createdNames_append (a b : List Event) :
    createdNames (a ++ b) = createdNames a ++ createdNames b := by
  induction a with
  | nil => rfl
  | cons e t ih => cases e <;> simp [createdNames, ih]

/-- Every name targeted by a create call of the container loop, starting
from an arbitrary accumulator: it extends the accumulated names by exactly
the processed headers not in the start map (tracked by `inMap0`), as an
in-order selection of them. -/
theorem verify_fold_created (env : Env) (inMap0 : String → Bool) :
    ∀ (tps : List String) (cmap : AList String) (evs : List Event),
      (∀ n, inMap0 n = true → alistContains cmap n = true) →
      (∀ n, alistContains cmap n = true → inMap0 n = true ∨ n ∈ createdNames evs) →
      (∀ n, n ∈ createdNames (tps.foldl (verifyStep env) (cmap, evs)).2 ↔
          (n ∈ createdNames evs ∨ (n ∈ tps ∧ inMap0 n = false))) ∧
      (∃ l, createdNames (tps.foldl (verifyStep env) (cmap, evs)).2 =
          createdNames evs ++ l ∧ l.Sublist tps) := by
  intro tps
  induction tps with
  | nil =>
      intro cmap evs h1 h2
      refine ⟨fun n => by simp, ⟨[], by simp, List.nil_sublist []⟩⟩
  | cons p t ih =>
      intro cmap evs h1 h2
      by_cases hc : alistContains cmap p = true
      · have hstep : verifyStep env (cmap, evs) p = (cmap, evs) := by
          simp [verifyStep, hc]
        rw [List.foldl_cons, hstep]
        obtain ⟨ihA, ihB⟩ := ih cmap evs h1 h2
        constructor
        · intro n
          rw [ihA n]
          constructor
          · rintro (hx | hx)
            · exact Or.inl hx
            · exact Or.inr ⟨List.mem_cons_of_mem _ hx.1, hx.2⟩
          · rintro (hx | ⟨hmem, hin0⟩)
            · exact Or.inl hx
            · rcases List.mem_cons.mp hmem with he | ht
              · subst he
                rcases h2 n hc with h0 | hcr
                · rw [h0] at hin0; cases hin0
                · exact Or.inl hcr
              · exact Or.inr ⟨ht, hin0⟩
        · obtain ⟨l, hl, hsub⟩ := ihB
          exact ⟨l, hl, hsub.cons p⟩
      · have hin0p : inMap0 p = false := by
          cases hp : inMap0 p with
          | false => rfl
          | true => exact absurd (h1 p hp) hc
        by_cases hok : (containerCreateResp env p).ok = true
        · have hstep : verifyStep env (cmap, evs) p =
              (alistSet cmap p (env.createRespId p),
                evs ++ [Event.createContainer p (containerCreateResp env p)]) := by
            simp [verifyStep, hc, hok]
          rw [List.foldl_cons, hstep]
          have hev : createdNames
              (evs ++ [Event.createContainer p (containerCreateResp env p)]) =
              createdNames evs ++ [p] := by
            rw [createdNames_append]; rfl
          have h1' : ∀ n, inMap0 n = true →
              alistContains (alistSet cmap p (env.createRespId p)) n = true := by
            intro n hn
            rw [alistContains_alistSet]
            simp [h1 n hn]
          have h2' : ∀ n, alistContains (alistSet cmap p (env.createRespId p)) n = true →
              inMap0 n = true ∨ n ∈ createdNames
                (evs ++ [Event.createContainer p (containerCreateResp env p)]) := by
            intro n hn
            rw [alistContains_alistSet] at hn
            rw [hev]
            rcases Bool.or_eq_true_iff.mp hn with hpn | hcn
            · right
              have : p = n := of_decide_eq_true hpn
              subst this
              simp
            · rcases h2 n hcn with h0 | hcr
              · exact Or.inl h0
              · exact Or.inr (by simp [hcr])
          obtain ⟨ihA, ihB⟩ := ih (alistSet cmap p (env.createRespId p))
            (evs ++ [Event.createContainer p (containerCreateResp env p)]) h1' h2'
          constructor
          · intro n
            rw [ihA n, hev]
            simp only [List.mem_append, List.mem_singleton, List.mem_cons]
            constructor
            · rintro ((hx | hx | hx) | ⟨ht, hin0⟩)
              · exact Or.inl hx
              · subst hx; exact Or.inr ⟨Or.inl rfl, hin0p⟩
              · exact absurd hx (List.not_mem_nil n)
              · exact Or.inr ⟨Or.inr ht, hin0⟩
            · rintro (hx | ⟨(he | ht), hin0⟩)
              · exact Or.inl (Or.inl hx)
              · subst he; exact Or.inl (Or.inr (Or.inl rfl))
              · exact Or.inr ⟨ht, hin0⟩
          · obtain ⟨l, hl, hsub⟩ := ihB
            rw [hev] at hl
            exact ⟨p :: l, by simpa using hl, hsub.cons₂ p⟩
        · have hstep : verifyStep env (cmap, evs) p =
              (cmap, evs ++ [Event.createContainer p (containerCreateResp env p)]) := by
            simp [verifyStep, hc, hok]
          rw [List.foldl_cons, hstep]
          have hev : createdNames
              (evs ++ [Event.createContainer p (containerCreateResp env p)]) =
              createdNames evs ++ [p] := by
            rw [createdNames_append]; rfl
          have h2' : ∀ n, alistContains cmap n = true →
              inMap0 n = true ∨ n ∈ createdNames
                (evs ++ [Event.createContainer p (containerCreateResp env p)]) := by
            intro n hn
            rw [hev]
            rcases h2 n hn with h0 | hcr
            · exact Or.inl h0
            · exact Or.inr (by simp [hcr])
          obtain ⟨ihA, ihB⟩ := ih cmap
            (evs ++ [Event.createContainer p (containerCreateResp env p)]) h1 h2'
          constructor
          · intro n
            rw [ihA n, hev]
            simp only [List.mem_append, List.mem_singleton, List.mem_cons]
            constructor
            · rintro ((hx | hx | hx) | ⟨ht, hin0⟩)
              · exact Or.inl hx
              · subst hx; exact Or.inr ⟨Or.inl rfl, hin0p⟩
              · exact absurd hx (List.not_mem_nil n)
              · exact Or.inr ⟨Or.inr ht, hin0⟩
            · rintro (hx | ⟨(he | ht), hin0⟩)
              · exact Or.inl (Or.inl hx)
              · subst he; exact Or.inl (Or.inr (Or.inl rfl))
              · exact Or.inr ⟨ht, hin0⟩
          · obtain ⟨l, hl, hsub⟩ := ihB
            rw [hev] at hl
            exact ⟨p :: l, by simpa using hl, hsub.cons₂ p⟩

theorem createdNames_processPair (env : Env) (site_id : String)
    (container_map : AList String) (bmap : AList Binding) (header : String)
    (s : Finset String) :
    createdNames (processPair env site_id container_map bmap header s) = [] := by
  unfold processPair
  split
  · rfl
  · split
    · rename_i eb heb
      by_cases hcard :
          (eb.ipv4_prefixes.toFinset ∪ s).card > eb.ipv4_prefixes.toFinset.card <;>
        simp [hcard, createdNames]
    · rfl

theorem createdNames_foldl_append {α : Type} (f : α → List Event) (l : List α)
    (init : List Event) (h : ∀ x ∈ l, createdNames (f x) = []) :
    createdNames (l.foldl (fun a x => a ++ f x) init) = createdNames init := by
  induction l generalizing init with
  | nil => rfl
  | cons x t ih =>
      simp only [List.foldl_cons]
      rw [ih (init ++ f x) (fun y hy => h y (by simp [hy]))]
      rw [createdNames_append, h x (by simp), List.append_nil]

theorem createdNames_processSite (env : Env) (site_id_map container_map : AList String)
    (site_name : String) (pd : AList (Finset String)) :
    createdNames (processSite env site_id_map container_map site_name pd) = [] := by
  unfold processSite
  split
  · rfl
  · rename_i site_id hsid
    show createdNames
      (pd.foldl (fun evs hs =>
        evs ++ processPair env site_id container_map
          (fetchCurrentBindings env site_id) hs.1 hs.2) []) = []
    exact createdNames_foldl_append
      (fun hs => processPair env site_id container_map
        (fetchCurrentBindings env site_id) hs.1 hs.2) pd []
      (fun hs _ => createdNames_processPair env site_id container_map
        (fetchCurrentBindings env site_id) hs.1 hs.2)

theorem createdNames_runCore (env : Env) (site_id_map cmap0 : AList String)
    (data : CSVData) (hs : List String) (hf : data.fieldnames = some hs)
    (hne : hs ≠ []) :
    createdNames (runCore env site_id_map cmap0 (some data)) =
      createdNames (verifyContainers env (target_prefixes hs) cmap0).2 := by
  obtain ⟨fns, rows⟩ := data
  have hf2 : fns = some hs := hf
  subst hf2
  simp only [runCore]
  rw [if_neg hne, createdNames_append]
  rw [createdNames_foldl_append
    (fun sp => processSite env site_id_map
      (verifyContainers env (target_prefixes hs) cmap0).1 sp.1 sp.2)
    (aggregate (target_prefixes hs) rows) []
    (fun sp _ => createdNames_processSite env site_id_map
      (verifyContainers env (target_prefixes hs) cmap0).1 sp.1 sp.2)]
  simp [createdNames]

/-! ## Aggregation lemmas -/

theorem alistGet_addCellG (g : AList (Finset String)) (h c h0 : String) :
    alistGet (addCell.addCellG g h c) h0 =
      if h = h0 then some (insert c ((alistGet g h0).getD ∅)) else alistGet g h0 := by
  induction g with
  | nil => by_cases hh : h = h0 <;> simp [addCell.addCellG, alistGet, hh]
  | cons e t ih =>
      obtain ⟨h1, s1⟩ := e
      by_cases h1h : h1 = h
      · subst h1h
        by_cases hh0 : h1 = h0 <;> simp [addCell.addCellG, alistGet, hh0]
      · by_cases h1h0 : h1 = h0
        · subst h1h0
          have : ¬ h = h1 := fun he => h1h he.symm
          simp [addCell.addCellG, alistGet, h1h, this]
        · simp [addCell.addCellG, alistGet, h1h, h1h0, ih]

theorem aggGet_addCell (p : Pending) (sn h c s h0 : String) :
    aggGet (addCell p sn h c) s h0 =
      if sn = s ∧ h = h0 then insert c (aggGet p s h0) else aggGet p s h0 := by
  induction p with
  | nil =>
      by_cases hs : sn = s
      · by_cases hh : h = h0 <;> simp [addCell, aggGet, alistGet, hs, hh]
      · simp [addCell, aggGet, alistGet, hs]
  | cons e t ih =>
      obtain ⟨s0, g0⟩ := e
      by_cases hs0 : s0 = sn
      · subst hs0
        by_cases hss : s0 = s
        · subst hss
          rw [show addCell ((s0, g0) :: t) s0 h c = (s0, addCell.addCellG g0 h c) :: t
            from by simp [addCell]]
          by_cases hh : h = h0 <;>
            simp [aggGet, alistGet, alistGet_addCellG, hh]
        · have hns : ¬ (s0 = s ∧ h = h0) := fun hx => hss hx.1
          rw [show addCell ((s0, g0) :: t) s0 h c = (s0, addCell.addCellG g0 h c) :: t
            from by simp [addCell]]
          simp [aggGet, alistGet, hss, hns]
      · rw [show addCell ((s0, g0) :: t) sn h c = (s0, g0) :: addCell t sn h c
          from by simp [addCell, hs0]]
        by_cases hss : s0 = s
        · have hns : ¬ (sn = s ∧ h = h0) := fun hx => hs0 (hss.trans hx.1.symm)
          simp [aggGet, alistGet, hss, hns]
        · have ih2 := ih
          unfold aggGet at ih2 ⊢
          simp only [alistGet, hss, if_false]
          exact ih2

/-- One per-cell step of the aggregation loop, seen through `aggGet`. -/
theorem aggGet_cellStep (row : Row) (sn h1 : String) (p : Pending) (s h : String) :
    aggGet
      (match rowGet row h1 with
       | none => p
       | some cidr =>
           if pyTruthyS cidr && pyTruthyS (pyStrip cidr) then
             addCell p sn h1 (pyStrip cidr)
           else p) s h =
    aggGet p s h ∪ (if sn = s ∧ h1 = h then cellContrib row h1 else ∅) := by
  cases hr : rowGet row h1 with
  | none => simp [cellContrib, hr]
  | some c =>
      by_cases hc : pyTruthyS c && pyTruthyS (pyStrip c)
      · simp only [hc, if_true, aggGet_addCell]
        have hcc : cellContrib row h1 = {pyStrip c} := by
          simp [cellContrib, hr, hc]
        rw [hcc]
        by_cases hcond : sn = s ∧ h1 = h
        · rw [if_pos hcond, if_pos hcond]
          rw [Finset.insert_eq, Finset.union_comm]
        · rw [if_neg hcond, if_neg hcond, Finset.union_empty]
      · simp only [hc, if_false]
        have hcc : cellContrib row h1 = ∅ := by simp [cellContrib, hr, hc]
        rw [hcc]
        simp

theorem aggGet_aggregateCells (row : Row) (sn : String) (tps : List String)
    (p : Pending) (s h : String) :
    aggGet (aggregateCells p sn row tps) s h =
      aggGet p s h ∪ (if sn = s ∧ h ∈ tps then cellContrib row h else ∅) := by
  induction tps generalizing p with
  | nil => simp [aggregateCells]
  | cons h1 t ih =>
      have hstep : aggregateCells p sn row (h1 :: t) =
          aggregateCells
            (match rowGet row h1 with
             | none => p
             | some cidr =>
                 if pyTruthyS cidr && pyTruthyS (pyStrip cidr) then
                   addCell p sn h1 (pyStrip cidr)
                 else p) sn row t := by
        simp [aggregateCells]
      rw [hstep, ih, aggGet_cellStep]
      by_cases hs : sn = s
      · subst hs
        by_cases hh : h1 = h
        · subst hh
          have hmem : h1 ∈ h1 :: t := by simp
          by_cases ht : h1 ∈ t <;>
            simp [ht, hmem, Finset.union_assoc, Finset.union_self]
        · have hm : (h ∈ h1 :: t) = (h ∈ t) := by
            simp only [List.mem_cons, eq_iff_iff]
            constructor
            · rintro (hx | hx)
              · exact absurd hx.symm hh
              · exact hx
            · exact Or.inr
          by_cases ht : h ∈ t <;> simp [hh, ht, hm]
      · simp [hs]

/-! ## Claim theorems -/

/-- C9: the list-containers operation issues exactly one listing call, and
it is the first available mechanism of the fallback chain (capability A,
else capability B, else the generic request to the fixed resource path);
mechanisms are never combined. -/
theorem C9_container_listing_first_available (env : Env) :
    [containersCallChoice env] = (availableContainerCalls env).take 1 := by
  unfold containersCallChoice availableContainerCalls
  by_cases hA : env.hasCapA <;> by_cases hB : env.hasCapB <;> simp [hA, hB]

/-- C3 counterexample: a conflict response (409 status and an
"already exists" message fragment) on a binding update or create is handled
by the same FAILED branch as any other non-ok response — it is reported as
a failure, not as an informational outcome, contradicting the claim. -/
theorem C3_counterexample_conflict_reported_as_failure :
    isConflictResp ⟨false, 409, "Binding already exists"⟩ = true ∧
    (handleUpdateResp ⟨false, 409, "Binding already exists"⟩).isFailureLog = true ∧
    (handleCreateResp ⟨false, 409, "Binding already exists"⟩).isFailureLog = true ∧
    handleUpdateResp ⟨false, 409, "Binding already exists"⟩ =
      UpdateLog.failedUpdate 409 "Binding already exists" ∧
    handleUpdateResp ⟨false, 500, "internal error"⟩ =
      UpdateLog.failedUpdate 500 "internal error" := by
  decide

/-- C3 (amended): the response handlers for binding update and create
distinguish only `resp.ok`: every non-ok response — a conflict or
"already exists" report included — takes the same FAILED branch carrying
the status code and text; conflicts receive no special, informational
treatment. -/
theorem C3_amended_nonok_handled_uniformly (r : Resp) (h : r.ok = false) :
    handleUpdateResp r = UpdateLog.failedUpdate r.status_code r.text ∧
    handleCreateResp r = CreateLog.failedCreate r.status_code r.text := by
  simp [handleUpdateResp, handleCreateResp, h]

/-- Witness for the amended C3, at a conflict response. -/
theorem C3_amended_witness :
    (⟨false, 409, "already exists"⟩ : Resp).ok = false ∧
    (handleUpdateResp ⟨false, 409, "already exists"⟩ =
        UpdateLog.failedUpdate 409 "already exists" ∧
      handleCreateResp ⟨false, 409, "already exists"⟩ =
        CreateLog.failedCreate 409 "already exists") :=
  ⟨rfl, C3_amended_nonok_handled_uniformly ⟨false, 409, "already exists"⟩ rfl⟩

/-- C8: when the CSV file is missing (`FileNotFoundError`), or the header
row is absent (`fieldnames` is `None`) or empty, the run reports the
condition and ends with an empty remote-call trace: no container create and
no binding create or update is issued. -/
theorem C8_input_error_no_mutation (env : Env)
    (hs : env.sitesResp.ok = true) (hc : (containersResp env).ok = true) :
    process_bindings env none = Except.ok [] ∧
    (∀ rows, process_bindings env (some ⟨none, rows⟩) = Except.ok []) ∧
    (∀ rows, process_bindings env (some ⟨some [], rows⟩) = Except.ok []) := by
  unfold process_bindings get_site_map get_ngfw_prefix_containers runCore
  simp [hs, hc]

/-- Witness for C8 at the sample environment. -/
theorem C8_witness :
    sampleEnv.sitesResp.ok = true ∧ (containersResp sampleEnv).ok = true ∧
    (process_bindings sampleEnv none = Except.ok [] ∧
      (∀ rows, process_bindings sampleEnv (some ⟨none, rows⟩) = Except.ok []) ∧
      (∀ rows, process_bindings sampleEnv (some ⟨some [], rows⟩) = Except.ok [])) :=
  ⟨rfl, rfl, C8_input_error_no_mutation sampleEnv rfl rfl⟩

/-- C7: a failing list-sites or list-containers response terminates the run
at once with exit code 1 and an empty trace (no reconciliation step runs);
with both prerequisites ok the run always ends normally with a trace — a
failing container create, binding fetch, binding create or binding update
(`env` may fail any of them, including by exception) never aborts it. -/
theorem C7_fatal_prereqs_nonfatal_loop (env : Env) (file : Option CSVData) :
    (env.sitesResp.ok = false → process_bindings env file = Except.error 1) ∧
    (env.sitesResp.ok = true → (containersResp env).ok = false →
      process_bindings env file = Except.error 1) ∧
    (env.sitesResp.ok = true → (containersResp env).ok = true →
      ∃ evs, process_bindings env file = Except.ok evs) := by
  refine ⟨fun hs => ?_, fun hs hc => ?_, fun hs hc => ?_⟩
  · unfold process_bindings get_site_map
    simp [hs]
  · unfold process_bindings get_site_map get_ngfw_prefix_containers
    simp [hs, hc]
  · refine ⟨runCore env (buildIdMap env.sitesItems)
      (buildIdMap (containersItems env)) file, ?_⟩
    unfold process_bindings get_site_map get_ngfw_prefix_containers
    simp [hs, hc]

theorem verifyContainers_all_known (env : Env) (tps : List String)
    (cmap : AList String) (h : ∀ p ∈ tps, alistContains cmap p = true) :
    verifyContainers env tps cmap = (cmap, []) := by
  unfold verifyContainers
  induction tps with
  | nil => rfl
  | cons p t ih =>
      rw [List.foldl_cons,
        show verifyStep env (cmap, []) p = (cmap, []) from by
          simp [verifyStep, h p (by simp)]]
      exact ih (fun q hq => h q (by simp [hq]))

/-- The per-pair "up to date" skip: when every resolved container id for the
header is covered by a fetched binding, the loop body emits nothing. -/
theorem processPair_upToDate (env : Env) (sid : String) (cmap : AList String)
    (header : String) (s : Finset String)
    (hcov : ∀ cid, pyLookup cmap header = some cid →
      bindingCovers env sid cid s = true) :
    processPair env sid cmap (fetchCurrentBindings env sid) header s = [] := by
  unfold processPair
  split
  · rfl
  · rename_i cid hcid
    have hcov2 := hcov cid hcid
    unfold bindingCovers at hcov2
    split at hcov2
    · cases hcov2
    · rename_i eb heb
      simp only [heb]
      have hsub : s ⊆ eb.ipv4_prefixes.toFinset := of_decide_eq_true hcov2
      have hunion : eb.ipv4_prefixes.toFinset ∪ s = eb.ipv4_prefixes.toFinset :=
        Finset.union_eq_left.mpr hsub
      simp [hunion]

/-- Reading `syncedState` back as per-pair coverage. -/
theorem syncedState_spec (env : Env) (simap cmap : AList String)
    (pending : Pending) (h : syncedState env simap cmap pending = true) :
    ∀ sp ∈ pending, ∀ sid, pyLookup simap sp.1 = some sid →
      ∀ gp ∈ sp.2, ∀ cid, pyLookup cmap gp.1 = some cid →
        bindingCovers env sid cid gp.2 = true := by
  intro sp hsp sid hsid gp hgp cid hcid
  unfold syncedState at h
  rw [List.all_eq_true] at h
  have h1 := h sp hsp
  rw [hsid] at h1
  have h2 : sp.2.all (fun gp =>
      match pyLookup cmap gp.1 with
      | none => true
      | some cid => bindingCovers env sid cid gp.2) = true := h1
  rw [List.all_eq_true] at h2
  have h3 := h2 gp hgp
  rw [hcid] at h3
  exact h3

/-- A site whose pairs are all covered contributes at most its fetch event:
nothing it emits is mutating. -/
theorem processSite_synced (env : Env) (simap cmap : AList String)
    (sn : String) (pd : AList (Finset String))
    (hsync : ∀ sid, pyLookup simap sn = some sid →
      ∀ gp ∈ pd, ∀ cid, pyLookup cmap gp.1 = some cid →
        bindingCovers env sid cid gp.2 = true) :
    ∀ e ∈ processSite env simap cmap sn pd, e.isMutating = false := by
  unfold processSite
  split
  · intro e he; simp at he
  · rename_i sid hsid
    intro e he
    rcases List.mem_cons.mp he with he1 | he2
    · subst he1; rfl
    · have hnil := foldl_append_nil
        (fun gp => processPair env sid cmap (fetchCurrentBindings env sid) gp.1 gp.2)
        pd []
        (fun gp hgp => processPair_upToDate env sid cmap gp.1 gp.2
          (fun cid hcid => hsync sid hsid gp hgp cid hcid))
      rw [hnil] at he2
      simp at he2

/-- C4: CSV aggregation — a row whose site-name cell is missing or blank
contributes nothing to the aggregated state; for a kept row, the set of
every (site, group) pair grows exactly by the cell contribution under that
group header, joined by set union (so duplicates across rows collapse);
the contribution is empty for a missing, blank or whitespace-only cell and
the trimmed singleton for a non-blank cell. -/
theorem C4_csv_aggregation (p : Pending) (tps : List String) (row : Row) :
    (pyTruthyO (rowGet row "site_name") = false → aggregateRow p tps row = p) ∧
    (∀ sn, rowGet row "site_name" = some sn → sn ≠ "" →
      ∀ s h, aggGet (aggregateRow p tps row) s h =
        aggGet p s h ∪ (if sn = s ∧ h ∈ tps then cellContrib row h else ∅)) ∧
    (∀ h, rowGet row h = none → cellContrib row h = ∅) ∧
    (∀ h c, rowGet row h = some c → pyStrip c = "" → cellContrib row h = ∅) ∧
    (∀ h c, rowGet row h = some c → pyStrip c ≠ "" →
      cellContrib row h = {pyStrip c}) := by
  refine ⟨?_, ?_, ?_, ?_, ?_⟩
  · intro hfalse
    unfold aggregateRow
    cases hr : rowGet row "site_name" with
    | none => rfl
    | some sn =>
        rw [hr] at hfalse
        simp only [pyTruthyO, pyTruthyS] at hfalse
        have hsn : sn = "" := by
          by_cases hx : sn = ""
          · exact hx
          · simp [hx] at hfalse
        simp [hsn]
  · intro sn hr hne s h
    simp only [aggregateRow, hr]
    rw [if_neg hne, aggGet_aggregateCells]
  · intro h hr
    simp [cellContrib, hr]
  · intro h c hr hstrip
    simp [cellContrib, hr, pyTruthyS, hstrip]
  · intro h c hr hstrip
    have hc : c ≠ "" := by
      intro hx
      subst hx
      exact hstrip rfl
    simp [cellContrib, hr, pyTruthyS, hc, hstrip]

/-- Witness for C4: a blank-site row changes nothing; a kept row's effect at
one (site, group) pair; a missing cell, a whitespace-only cell and a padded
cell's contributions. -/
theorem C4_witness :
    (pyTruthyO (rowGet wRowBlank "site_name") = false ∧
      aggregateRow [] ["US-East", "US-West"] wRowBlank = []) ∧
    (rowGet wRow1 "site_name" = some "Boston" ∧ "Boston" ≠ "" ∧
      aggGet (aggregateRow [] ["US-East", "US-West"] wRow1) "Boston" "US-East" =
        aggGet [] "Boston" "US-East" ∪
          (if "Boston" = "Boston" ∧ "US-East" ∈ ["US-East", "US-West"] then
            cellContrib wRow1 "US-East" else ∅)) ∧
    (rowGet wRow1 "APAC" = none ∧ cellContrib wRow1 "APAC" = ∅) ∧
    (rowGet wRow1 "US-West" = some "   " ∧ pyStrip "   " = "" ∧
      cellContrib wRow1 "US-West" = ∅) ∧
    (rowGet wRow1 "US-East" = some " 10.0.0.0/24 " ∧
      pyStrip " 10.0.0.0/24 " ≠ "" ∧
      cellContrib wRow1 "US-East" = {pyStrip " 10.0.0.0/24 "}) :=
  ⟨⟨by decide, (C4_csv_aggregation [] ["US-East", "US-West"] wRowBlank).1 (by decide)⟩,
    ⟨rfl, by decide,
      (C4_csv_aggregation [] ["US-East", "US-West"] wRow1).2.1 "Boston" rfl
        (by decide) "Boston" "US-East"⟩,
    ⟨rfl, (C4_csv_aggregation [] ["US-East", "US-West"] wRow1).2.2.1 "APAC" rfl⟩,
    ⟨rfl, by decide,
      (C4_csv_aggregation [] ["US-East", "US-West"] wRow1).2.2.2.1 "US-West" "   "
        rfl (by decide)⟩,
    ⟨rfl, by decide,
      (C4_csv_aggregation [] ["US-East", "US-West"] wRow1).2.2.2.2 "US-East"
        " 10.0.0.0/24 " rfl (by decide)⟩⟩

/-- C10: site-name cells are never trimmed — any non-empty site-name cell,
a whitespace-only or whitespace-padded one included, keeps the row in the
aggregation, whose cells are filed verbatim under the untrimmed key; in the
sync loop a site key failing the exact-string site-map lookup (or mapping
to an empty id) is skipped silently: no binding fetch, no event at all. -/
theorem C10_untrimmed_site_key (p : Pending) (tps : List String) (row : Row)
    (sn : String) (hget : rowGet row "site_name" = some sn) (hne : sn ≠ "") :
    aggregateRow p tps row = aggregateCells p sn row tps ∧
    (∀ h, aggGet (aggregateRow p tps row) sn h =
      aggGet p sn h ∪ (if h ∈ tps then cellContrib row h else ∅)) ∧
    (∀ env site_id_map container_map pd, pyLookup site_id_map sn = none →
      processSite env site_id_map container_map sn pd = []) := by
  have h1 : aggregateRow p tps row = aggregateCells p sn row tps := by
    simp only [aggregateRow, hget]
    rw [if_neg hne]
  refine ⟨h1, ?_, ?_⟩
  · intro h
    rw [h1, aggGet_aggregateCells]
    simp
  · intro env simap cmap pd hnone
    simp only [processSite, hnone]

/-- Witness for C10: a row with site-name cell `" Boston "` is aggregated
under that untrimmed key, and the sync loop, whose site map holds only
`"Boston"`, emits no event for it. -/
theorem C10_witness :
    (aggregateRow [] ["US-East"] wRowPad = aggregateCells [] " Boston " wRowPad ["US-East"]) ∧
    (aggGet (aggregateRow [] ["US-East"] wRowPad) " Boston " "US-East" =
      aggGet [] " Boston " "US-East" ∪
        (if "US-East" ∈ ["US-East"] then cellContrib wRowPad "US-East" else ∅)) ∧
    processSite sampleEnv [("Boston", "s1")] [("US-East", "c1")] " Boston "
      [("US-East", {"10.0.0.0/24"})] = [] :=
  ⟨(C10_untrimmed_site_key [] ["US-East"] wRowPad " Boston " rfl (by decide)).1,
    (C10_untrimmed_site_key [] ["US-East"] wRowPad " Boston " rfl (by decide)).2.1
      "US-East",
    (C10_untrimmed_site_key [] ["US-East"] wRowPad " Boston " rfl (by decide)).2.2
      sampleEnv [("Boston", "s1")] [("US-East", "c1")] [("US-East", {"10.0.0.0/24"})]
      (by decide)⟩

/-- C5: the names targeted by the run's container-create calls are exactly
the header names missing from the container map at run start, as an
in-order selection of the header list; the reserved columns (`site_name`,
`SDK`, `serial_number`, `hostname`) and blank headers are never created;
and the whole run's create calls all come from the container-verification
loop (the binding loop issues none). -/
theorem C5_container_creation_scope (env : Env) (all_headers : List String)
    (cmap0 : AList String) :
    (∀ n, n ∈ createdNames (verifyContainers env (target_prefixes all_headers) cmap0).2 ↔
      (n ∈ target_prefixes all_headers ∧ alistContains cmap0 n = false)) ∧
    (createdNames (verifyContainers env (target_prefixes all_headers) cmap0).2).Sublist
      (target_prefixes all_headers) ∧
    (∀ n, n ∈ createdNames (verifyContainers env (target_prefixes all_headers) cmap0).2 →
      n ∉ ignore_cols ∧ n ≠ "") ∧
    (∀ data hs site_id_map, CSVData.fieldnames data = some hs → hs ≠ [] →
      createdNames (runCore env site_id_map cmap0 (some data)) =
        createdNames (verifyContainers env (target_prefixes hs) cmap0).2) := by
  obtain ⟨hA, hB⟩ := verify_fold_created env (alistContains cmap0)
    (target_prefixes all_headers) cmap0 [] (fun n h => h) (fun n h => Or.inl h)
  have hmem : ∀ n,
      n ∈ createdNames (verifyContainers env (target_prefixes all_headers) cmap0).2 ↔
        (n ∈ target_prefixes all_headers ∧ alistContains cmap0 n = false) := by
    intro n
    rw [show verifyContainers env (target_prefixes all_headers) cmap0 =
      (target_prefixes all_headers).foldl (verifyStep env) (cmap0, []) from rfl]
    rw [hA n]
    simp [createdNames]
  refine ⟨hmem, ?_, ?_, ?_⟩
  · obtain ⟨l, hl, hsub⟩ := hB
    rw [show verifyContainers env (target_prefixes all_headers) cmap0 =
      (target_prefixes all_headers).foldl (verifyStep env) (cmap0, []) from rfl]
    rw [hl]
    simpa [createdNames] using hsub
  · intro n hn
    have htp : n ∈ target_prefixes all_headers := ((hmem n).mp hn).1
    have hflt := List.mem_filter.mp htp
    have hprop := hflt.2
    simp only [Bool.and_eq_true, Bool.not_eq_true'] at hprop
    constructor
    · intro hig
      have hcon : ignore_cols.contains n = true := by simpa using hig
      rw [hprop.2] at hcon
      cases hcon
    · intro hne
      subst hne
      have hpt : pyTruthyS "" = true := hprop.1
      simp [pyTruthyS] at hpt
  · intro data hs site_id_map hf hne
    exact createdNames_runCore env site_id_map cmap0 data hs hf hne

/-- Witness for C5 on the sample data: `APAC` (absent from the start map)
is created, is no reserved column, and the full run's create calls equal
the verification loop's. -/
theorem C5_witness :
    ("APAC" ∈ createdNames (verifyContainers sampleEnv
        (target_prefixes ["site_name", "US-East", "APAC"]) [("US-East", "c1")]).2 ↔
      ("APAC" ∈ target_prefixes ["site_name", "US-East", "APAC"] ∧
        alistContains [("US-East", "c1")] "APAC" = false)) ∧
    ("APAC" ∉ ignore_cols ∧ "APAC" ≠ "") ∧
    createdNames (runCore sampleEnv [("Boston", "s1")] [("US-East", "c1")]
        (some sampleCSV)) =
      createdNames (verifyContainers sampleEnv
        (target_prefixes ["site_name", "US-East"]) [("US-East", "c1")]).2 :=
  ⟨(C5_container_creation_scope sampleEnv ["site_name", "US-East", "APAC"]
      [("US-East", "c1")]).1 "APAC",
    (C5_container_creation_scope sampleEnv ["site_name", "US-East", "APAC"]
      [("US-East", "c1")]).2.2.1 "APAC" (by decide),
    (C5_container_creation_scope sampleEnv ["site_name", "US-East"]
      [("US-East", "c1")]).2.2.2 sampleCSV ["site_name", "US-East"]
      [("Boston", "s1")] rfl (by decide)⟩

/-- C1: idempotence of the reconciler — with both prerequisite listings ok,
every target header already in the container map, and remote state already
synced (every resolvable (site, group) pair has an existing binding whose
ipv4 set contains the whole CSV-supplied set, which is what a completed run
leaves behind), the run completes with a trace containing no mutating call:
no container create, no binding create, no binding update — every pair is
skipped as up to date.  Re-running against the state a successful run
produced therefore issues zero mutating calls. -/
theorem C1_idempotent_no_mutations (env : Env) (data : CSVData) (hs : List String)
    (hf : CSVData.fieldnames data = some hs) (hne : hs ≠ [])
    (hok1 : env.sitesResp.ok = true) (hok2 : (containersResp env).ok = true)
    (hknown : allContainersKnown (buildIdMap (containersItems env))
      (target_prefixes hs) = true)
    (hsync : syncedState env (buildIdMap env.sitesItems)
      (buildIdMap (containersItems env))
      (aggregate (target_prefixes hs) data.rows) = true) :
    ∃ evs, process_bindings env (some data) = Except.ok evs ∧
      evs.filter Event.isMutating = [] := by
  obtain ⟨fns, rows⟩ := data
  have hf2 : fns = some hs := hf
  subst hf2
  have hrun : process_bindings env (some ⟨some hs, rows⟩) =
      Except.ok (runCore env (buildIdMap env.sitesItems)
        (buildIdMap (containersItems env)) (some ⟨some hs, rows⟩)) := by
    unfold process_bindings get_site_map get_ngfw_prefix_containers
    simp [hok1, hok2]
  refine ⟨_, hrun, ?_⟩
  have hvc : verifyContainers env (target_prefixes hs)
      (buildIdMap (containersItems env)) =
      (buildIdMap (containersItems env), []) := by
    apply verifyContainers_all_known
    intro p hp
    unfold allContainersKnown at hknown
    rw [List.all_eq_true] at hknown
    exact hknown p hp
  have hcore : runCore env (buildIdMap env.sitesItems)
      (buildIdMap (containersItems env)) (some ⟨some hs, rows⟩) =
      (aggregate (target_prefixes hs) rows).foldl
        (fun evs sp => evs ++ processSite env (buildIdMap env.sitesItems)
          (buildIdMap (containersItems env)) sp.1 sp.2) [] := by
    simp only [runCore]
    rw [if_neg hne, hvc]
    simp
  rw [hcore, List.filter_eq_nil_iff]
  intro e he
  rw [mem_foldl_append
    (fun sp => processSite env (buildIdMap env.sitesItems)
      (buildIdMap (containersItems env)) sp.1 sp.2)
    (aggregate (target_prefixes hs) rows) e] at he
  obtain ⟨sp, hsp, hesp⟩ := he
  have hmut := processSite_synced env (buildIdMap env.sitesItems)
    (buildIdMap (containersItems env)) sp.1 sp.2
    (fun sid hsid gp hgp cid hcid =>
      syncedState_spec env (buildIdMap env.sitesItems)
        (buildIdMap (containersItems env))
        (aggregate (target_prefixes hs) rows) hsync sp hsp sid hsid gp hgp cid hcid)
    e hesp
  simp [hmut]

/-- Witness for C1: the sample environment's remote state already contains
the sample CSV's only CIDR, and the run's trace is free of mutating calls. -/
theorem C1_witness :
    sampleCSV.fieldnames = some ["site_name", "US-East"] ∧
    allContainersKnown (buildIdMap (containersItems sampleEnv))
      (target_prefixes ["site_name", "US-East"]) = true ∧
    syncedState sampleEnv (buildIdMap sampleEnv.sitesItems)
      (buildIdMap (containersItems sampleEnv))
      (aggregate (target_prefixes ["site_name", "US-East"]) sampleCSV.rows) = true ∧
    (∃ evs, process_bindings sampleEnv (some sampleCSV) = Except.ok evs ∧
      evs.filter Event.isMutating = []) :=
  ⟨rfl, by decide, by decide,
    C1_idempotent_no_mutations sampleEnv sampleCSV ["site_name", "US-East"] rfl
      (by decide) rfl rfl (by decide) (by decide)⟩

/-- Inversion of the update branch: every put event emitted by the
per-(header, CIDR set) loop body comes from a resolved container id, a
binding fetched under that id, a strictly growing union, and carries
exactly the payload of `mkUpdatePayload` together with that call's
response. -/
theorem processPair_put_inversion (env : Env) (site_id : String)
    (container_map : AList String) (bmap : AList Binding) (header : String)
    (s : Finset String) (sid2 bid : String) (p : UpdatePayload) (r : Option Resp)
    (hmem : Event.putBinding sid2 bid p r ∈
      processPair env site_id container_map bmap header s) :
    ∃ cid eb, pyLookup container_map header = some cid ∧
      alistGet bmap cid = some eb ∧ sid2 = site_id ∧ bid = eb.id ∧
      p = mkUpdatePayload eb cid (eb.ipv4_prefixes.toFinset ∪ s) ∧
      r = env.putResult site_id eb.id p ∧
      (eb.ipv4_prefixes.toFinset ∪ s).card > eb.ipv4_prefixes.toFinset.card := by
  unfold processPair at hmem
  split at hmem
  · simp at hmem
  · rename_i cid hcid
    split at hmem
    · rename_i eb heb
      simp only [] at hmem
      split at hmem
      · rename_i hcard
        simp only [List.mem_singleton, Event.putBinding.injEq] at hmem
        obtain ⟨h1, h2, h3, h4⟩ := hmem
        subst h1; subst h2; subst h3; subst h4
        exact ⟨cid, eb, hcid, heb, rfl, rfl, rfl, rfl, hcard⟩
      · simp at hmem
    · simp at hmem

/-- C2: the ipv4_prefixes carried by every update issued by the loop body
is exactly the union of the fetched existing binding's ipv4_prefixes and
the CSV-aggregated CIDR set for the pair — hence a superset of both, so no
remotely present CIDR is removed. -/
theorem C2_update_sends_exact_union (env : Env) (site_id : String)
    (container_map : AList String) (bmap : AList Binding) (header : String)
    (s : Finset String) (sid2 bid : String) (p : UpdatePayload) (r : Option Resp)
    (hmem : Event.putBinding sid2 bid p r ∈
      processPair env site_id container_map bmap header s) :
    ∃ cid eb, pyLookup container_map header = some cid ∧
      alistGet bmap cid = some eb ∧
      p.ipv4_prefixes = eb.ipv4_prefixes.toFinset ∪ s ∧
      eb.ipv4_prefixes.toFinset ⊆ p.ipv4_prefixes ∧ s ⊆ p.ipv4_prefixes := by
  obtain ⟨cid, eb, h1, h2, _, _, hp, _, _⟩ :=
    processPair_put_inversion env site_id container_map bmap header s sid2 bid p r hmem
  subst hp
  refine ⟨cid, eb, h1, h2, rfl, ?_, ?_⟩
  · exact Finset.subset_union_left
  · exact Finset.subset_union_right

/-- Witness for C2: a concrete update event produced by the sample data. -/
theorem C2_witness :
    (Event.putBinding "s1" "b1"
        (mkUpdatePayload sampleBinding "c1"
          (sampleBinding.ipv4_prefixes.toFinset ∪ {"10.0.1.0/24"}))
        (some okResp) ∈
      processPair sampleEnv "s1" [("US-East", "c1")] [("c1", sampleBinding)]
        "US-East" {"10.0.1.0/24"}) ∧
    (∃ cid eb, pyLookup [("US-East", "c1")] "US-East" = some cid ∧
      alistGet [("c1", sampleBinding)] cid = some eb ∧
      (mkUpdatePayload sampleBinding "c1"
          (sampleBinding.ipv4_prefixes.toFinset ∪ {"10.0.1.0/24"})).ipv4_prefixes =
        eb.ipv4_prefixes.toFinset ∪ {"10.0.1.0/24"} ∧
      eb.ipv4_prefixes.toFinset ⊆
        (mkUpdatePayload sampleBinding "c1"
          (sampleBinding.ipv4_prefixes.toFinset ∪ {"10.0.1.0/24"})).ipv4_prefixes ∧
      ({"10.0.1.0/24"} : Finset String) ⊆
        (mkUpdatePayload sampleBinding "c1"
          (sampleBinding.ipv4_prefixes.toFinset ∪ {"10.0.1.0/24"})).ipv4_prefixes) :=
  ⟨by decide,
    C2_update_sends_exact_union sampleEnv "s1" [("US-East", "c1")]
      [("c1", sampleBinding)] "US-East" {"10.0.1.0/24"} "s1" "b1" _ (some okResp)
      (by decide)⟩

/-- C6: every update payload emitted by the loop body carries the fetched
binding's id, the resolved container reference, an always-empty
ipv6_prefixes, the fetched tags value (empty exactly when the fetched value
is absent or null), and `_etag` / `_schema` equal to the fetched binding's —
present in the payload precisely when present on the fetched binding,
unchanged. -/
theorem C6_update_payload_frame (env : Env) (site_id : String)
    (container_map : AList String) (bmap : AList Binding) (header : String)
    (s : Finset String) (sid2 bid : String) (p : UpdatePayload) (r : Option Resp)
    (hmem : Event.putBinding sid2 bid p r ∈
      processPair env site_id container_map bmap header s) :
    ∃ cid eb, pyLookup container_map header = some cid ∧
      alistGet bmap cid = some eb ∧
      bid = eb.id ∧ p.id = eb.id ∧ p.prefix_id = cid ∧
      p.ipv4_prefixes = eb.ipv4_prefixes.toFinset ∪ s ∧
      p.ipv6_prefixes = [] ∧
      p.tags = (match eb.tags with | none => [] | some ts => ts) ∧
      p._etag = eb._etag ∧ p._schema = eb._schema := by
  obtain ⟨cid, eb, h1, h2, _, hbid, hp, _, _⟩ :=
    processPair_put_inversion env site_id container_map bmap header s sid2 bid p r hmem
  subst hp
  exact ⟨cid, eb, h1, h2, hbid, rfl, rfl, rfl, rfl, rfl, rfl, rfl⟩

/-- Witness for C6: the concrete update payload of the sample data carries
the binding id, container reference, empty ipv6_prefixes, defaulted tags
and the fetched `_etag` / `_schema`. -/
theorem C6_witness :
    ∃ cid eb, pyLookup [("US-East", "c1")] "US-East" = some cid ∧
      alistGet [("c1", sampleBinding)] cid = some eb ∧
      "b1" = eb.id ∧
      (mkUpdatePayload sampleBinding "c1"
        (sampleBinding.ipv4_prefixes.toFinset ∪ {"10.0.1.0/24"})).id = eb.id ∧
      (mkUpdatePayload sampleBinding "c1"
        (sampleBinding.ipv4_prefixes.toFinset ∪ {"10.0.1.0/24"})).prefix_id = cid ∧
      (mkUpdatePayload sampleBinding "c1"
          (sampleBinding.ipv4_prefixes.toFinset ∪ {"10.0.1.0/24"})).ipv4_prefixes =
        eb.ipv4_prefixes.toFinset ∪ {"10.0.1.0/24"} ∧
      (mkUpdatePayload sampleBinding "c1"
        (sampleBinding.ipv4_prefixes.toFinset ∪ {"10.0.1.0/24"})).ipv6_prefixes = [] ∧
      (mkUpdatePayload sampleBinding "c1"
          (sampleBinding.ipv4_prefixes.toFinset ∪ {"10.0.1.0/24"})).tags =
        (match eb.tags with | none => [] | some ts => ts) ∧
      (mkUpdatePayload sampleBinding "c1"
          (sampleBinding.ipv4_prefixes.toFinset ∪ {"10.0.1.0/24"}))._etag = eb._etag ∧
      (mkUpdatePayload sampleBinding "c1"
          (sampleBinding.ipv4_prefixes.toFinset ∪ {"10.0.1.0/24"}))._schema =
        eb._schema :=
  C6_update_payload_frame sampleEnv "s1" [("US-East", "c1")] [("c1", sampleBinding)]
    "US-East" {"10.0.1.0/24"} "s1" "b1" _ (some okResp) (by decide)

/-- Witness for C7: a failing sites listing aborts, a failing containers
listing aborts, and with both listings ok the run completes even though
every mutating call and the bindings fetch of the environment fails. -/
theorem C7_witness :
    (sampleEnvSitesFail.sitesResp.ok = false ∧
      process_bindings sampleEnvSitesFail (some sampleCSV) = Except.error 1) ∧
    (sampleEnvContFail.sitesResp.ok = true ∧
      (containersResp sampleEnvContFail).ok = false ∧
      process_bindings sampleEnvContFail (some sampleCSV) = Except.error 1) ∧
    (∃ evs,
      process_bindings
        { sampleEnvSitesFail with
            sitesResp := okResp
            createRespCap := fun _ => ⟨false, 500, "boom"⟩
            bindingsFetch := fun _ => none
            putResult := fun _ _ _ => none
            postResult := fun _ _ => none }
        (some sampleCSV) = Except.ok evs) :=
  ⟨⟨rfl, (C7_fatal_prereqs_nonfatal_loop sampleEnvSitesFail (some sampleCSV)).1 rfl⟩,
    ⟨rfl, rfl,
      (C7_fatal_prereqs_nonfatal_loop sampleEnvContFail (some sampleCSV)).2.1 rfl rfl⟩,
    (C7_fatal_prereqs_nonfatal_loop _ (some sampleCSV)).2.2 rfl rfl⟩

end Uploader

